import Mathlib

/-
Shallow embedding of the deck-state engine of the `fullbuild` repository
(`collapse_web/src/App.tsx`, component `DeckBuilder`).

Modelling conventions:
* JS numbers that hold card counts, capacities and limits are modelled as
  `Int` (snapshots restored from storage may carry arbitrary integers; the
  in-app adjusters clamp to the documented floors).
* A JS object used as a count map (`Record<string, number>`) is modelled as
  an insertion-ordered association list with unique keys, matching JS
  object-key semantics: updating an existing key keeps its position,
  a new key is appended.  The object spread `{ ...a, ...b }` is `spreadMerge`.
* `Math.floor(Math.random() * (i + 1))` is modelled by an arbitrary
  randomness source `g : Nat → Nat`, reduced mod `i + 1`, which ranges over
  exactly the values the JS expression can produce.
* The state fields carry the `?? default` of the source already applied;
  every writer in the source populates all of these fields.
  Fields no claim touches (`deckName`, `savedDecks`) are elided.
* JS truthiness is kept where the source relies on it: `if (!cardId)` in
  `draw` is true both for `undefined` and for the empty string `""`.
-/

namespace Collapse

/-- A catalog card; only `id` and `cost` are consumed by the engine. -/
structure Card where
  id : String
  cost : Int
deriving DecidableEq

/-- The external card catalog (`Handbook`): base cards, modifier cards and
the optional null card (`Handbook.nullCards?.[0]`). -/
structure Catalog where
  baseCards : List Card
  modCards : List Card
  nullCard : Option Card
deriving DecidableEq

/-- Hand entry status: `'unspent' | 'played'`. -/
inductive CardState where
  | unspent
  | played
deriving DecidableEq

/-- Discard entry origin: `'played' | 'discarded'`. -/
inductive Origin where
  | played
  | discarded
deriving DecidableEq

/-- `hand` entry `{ id, state }`. -/
structure HandEntry where
  id : String
  state : CardState
deriving DecidableEq

/-- `discard` entry `{ id, origin }`. -/
structure DiscardEntry where
  id : String
  origin : Origin
deriving DecidableEq

/-- `CountMap = Record<string, number>` as an insertion-ordered assoc list. -/
abbrev CountMap := List (String × Int)

/-- `DeckBuilderState` (persistence-only fields elided). -/
structure BuilderState where
  baseCounts : CountMap
  modCounts : CountMap
  nullCount : Int
  modifierCapacity : Int
  deck : List String
  hand : List HandEntry
  discard : List DiscardEntry
  isLocked : Bool
  handLimit : Int
deriving DecidableEq

/-- The `clamp(value, min)` helper of the source (the optional `max`
argument is never supplied at a call site the claims touch). -/
def clamp (value lo : Int) : Int := if value < lo then lo else value

/-- JS object read `m[k]` (absent key gives `undefined`). -/
def lookup? (m : CountMap) (k : String) : Option Int :=
  (m.find? (fun kv => kv.1 == k)).map (·.2)

/-- JS object write `{ ...m, [k]: v }`: an existing key keeps its position,
a new key is appended. -/
def setKey (m : CountMap) (k : String) (v : Int) : CountMap :=
  if (m.find? (fun kv => kv.1 == k)).isSome then
    m.map (fun kv => if kv.1 == k then (k, v) else kv)
  else m ++ [(k, v)]

/-- `sumCounts`: sum of the values of a count map. -/
def sumCounts (m : CountMap) : Int := (m.map (·.2)).sum

/-- `buildInitialCounts`: every catalog id mapped to 0. -/
def buildInitialCounts (cards : List Card) : CountMap :=
  cards.map (fun c => (c.id, 0))

/-- JS object spread `{ ...a, ...b }`: keys of `a` in order, values
overridden by `b` where present, then keys of `b` that are not in `a`. -/
def spreadMerge (a b : CountMap) : CountMap :=
  a.map (fun kv => (kv.1, (lookup? b kv.1).getD kv.2)) ++
    b.filter (fun kv => (lookup? a kv.1).isNone)

/-- One swap `[arr[i], arr[j]] = [arr[j], arr[i]]` on a list. -/
def listSwap (l : List String) (i j : Nat) : List String :=
  (l.set i (l.getD j "")).set j (l.getD i "")

/-- The loop of `shuffleInPlace`: `for (i = n-1; i > 0; i--) swap(i, j)`
with `j = Math.floor(Math.random() * (i + 1))` modelled as `g i % (i+1)`. -/
def fyLoop (g : Nat → Nat) : List String → Nat → List String
  | l, 0 => l
  | l, i + 1 => fyLoop g (listSwap l (i + 1) (g (i + 1) % (i + 2))) i

/-- `shuffleInPlace` (Fisher–Yates). -/
def shuffleInPlace (g : Nat → Nat) (l : List String) : List String :=
  fyLoop g l (l.length - 1)

theorem cons_set_perm (xs : List String) (m : Nat) (x : String)
    (h : m < xs.length) :
    List.Perm (xs.getD m "" :: xs.set m x) (x :: xs) := by
  induction xs generalizing m with
  | nil => simp at h
  | cons y ys ih =>
    cases m with
    | zero =>
      simpa using List.Perm.swap x y ys
    | succ k =>
      have hk : k < ys.length := by simpa using h
      have h1 : List.Perm (ys.getD k "" :: y :: ys.set k x)
          (y :: ys.getD k "" :: ys.set k x) := List.Perm.swap _ _ _
      have h2 : List.Perm (y :: ys.getD k "" :: ys.set k x) (y :: x :: ys) :=
        List.Perm.cons y (ih k hk)
      have h3 : List.Perm (y :: x :: ys) (x :: y :: ys) := List.Perm.swap _ _ _
      simpa [List.getD_cons_succ] using (h1.trans h2).trans h3

theorem listSwap_perm_lt (l : List String) (i j : Nat) (hij : i < j)
    (hj : j < l.length) : List.Perm (listSwap l i j) l := by
  induction l generalizing i j with
  | nil => simp at hj
  | cons y ys ih =>
    cases i with
    | zero =>
      cases j with
      | zero => omega
      | succ m =>
        have hm : m < ys.length := by simpa using hj
        have := cons_set_perm ys m y hm
        simpa [listSwap, List.getD_cons_succ] using this
    | succ p =>
      cases j with
      | zero => omega
      | succ m =>
        have hpm : p < m := by omega
        have hm : m < ys.length := by simpa using hj
        have := List.Perm.cons y (ih p m hpm hm)
        simpa [listSwap, List.getD_cons_succ] using this

theorem listSwap_self (l : List String) (i : Nat) (hi : i < l.length) :
    List.Perm (listSwap l i i) l := by
  have h1 : listSwap l i i = l.set i (l.getD i "") := by
    simp [listSwap, List.set_set]
  have h2 := cons_set_perm l i (l.getD i "") hi
  rw [h1]
  exact (List.perm_cons (l.getD i "")).mp h2

theorem listSwap_perm (l : List String) (i j : Nat) (hi : i < l.length)
    (hj : j < l.length) : List.Perm (listSwap l i j) l := by
  rcases Nat.lt_trichotomy i j with h | h | h
  · exact listSwap_perm_lt l i j h hj
  · subst h; exact listSwap_self l i hi
  · have : listSwap l i j = listSwap l j i := by
      simp only [listSwap]
      exact List.set_comm _ _ _ (by omega)
    rw [this]
    exact listSwap_perm_lt l j i h hi

theorem fyLoop_perm (g : Nat → Nat) :
    ∀ (k : Nat) (l : List String), k < l.length →
      List.Perm (fyLoop g l k) l := by
  intro k
  induction k with
  | zero => intro l _; simp [fyLoop]
  | succ n ih =>
    intro l hk
    have hj : g (n + 1) % (n + 2) < l.length := by
      have : g (n + 1) % (n + 2) < n + 2 := Nat.mod_lt _ (by omega)
      omega
    have hswap := listSwap_perm l (n + 1) (g (n + 1) % (n + 2)) hk hj
    have hlen : (listSwap l (n + 1) (g (n + 1) % (n + 2))).length = l.length :=
      hswap.length_eq
    have hn : n < (listSwap l (n + 1) (g (n + 1) % (n + 2))).length := by
      omega
    exact (ih _ hn).trans hswap

theorem shuffleInPlace_perm (g : Nat → Nat) (l : List String) :
    List.Perm (shuffleInPlace g l) l := by
  cases l with
  | nil => simp [shuffleInPlace, fyLoop]
  | cons x xs =>
    exact fyLoop_perm g xs.length (x :: xs) (by simp)

theorem shuffleInPlace_coe (g : Nat → Nat) (l : List String) :
    (↑(shuffleInPlace g l) : Multiset String) = ↑l :=
  Multiset.coe_eq_coe.mpr (shuffleInPlace_perm g l)

theorem shuffleInPlace_length (g : Nat → Nat) (l : List String) :
    (shuffleInPlace g l).length = l.length :=
  (shuffleInPlace_perm g l).length_eq

theorem shuffleInPlace_mem (g : Nat → Nat) (l : List String) (a : String) :
    a ∈ shuffleInPlace g l ↔ a ∈ l :=
  (shuffleInPlace_perm g l).mem_iff

def BASE_TARGET : Int := 26

def MIN_NULLS : Int := 5

/-- `buildDeckArray`: base ids repeated per count, then modifier ids, then
the null id repeated `nullCount` times (skipped when `nullCount` is falsy
or there is no null card in the catalog). -/
def buildDeckArray (cat : Catalog) (s : BuilderState) : List String :=
  ((s.baseCounts.map (fun kv => List.replicate kv.2.toNat kv.1)).flatten) ++
    ((s.modCounts.map (fun kv => List.replicate kv.2.toNat kv.1)).flatten) ++
    (if s.nullCount ≠ 0 then
      match cat.nullCard with
      | some nc => List.replicate s.nullCount.toNat nc.id
      | none => []
    else [])

/-- `generateDeck`: replace the deck with a (possibly shuffled) fresh build;
hand and discard are untouched. -/
def generateDeck (cat : Catalog) (doShuffle : Bool) (g : Nat → Nat)
    (s : BuilderState) : BuilderState :=
  { s with deck :=
      if doShuffle then shuffleInPlace g (buildDeckArray cat s)
      else buildDeckArray cat s }

/-- `shuffleDeck`. -/
def shuffleDeck (g : Nat → Nat) (s : BuilderState) : BuilderState :=
  { s with deck := shuffleInPlace g s.deck }

/-- `resetDeck`: rebuild and shuffle the deck, clear hand and discard. -/
def resetDeck (cat : Catalog) (g : Nat → Nat) (s : BuilderState) :
    BuilderState :=
  { s with
    deck := shuffleInPlace g (buildDeckArray cat s)
    hand := []
    discard := [] }

/-- The pop step of `draw`: `const cardId = deck.pop(); if (!cardId) ...`.
The guard `!cardId` is true for `undefined` (empty deck) and for the empty
string, so an empty-string id is removed from the deck without reaching the
hand. -/
def drawPop (s : BuilderState) (deck1 : List String)
    (discard1 : List DiscardEntry) : BuilderState :=
  match deck1.getLast? with
  | none => { s with deck := deck1, discard := discard1 }
  | some cid =>
    if cid = "" then { s with deck := deck1.dropLast, discard := discard1 }
    else
      { s with
        deck := deck1.dropLast
        hand := s.hand ++ [⟨cid, CardState.unspent⟩]
        discard := discard1 }

/-- `draw`: one card to hand.  No-op unless the deck is locked and the hand
is below the limit; an empty deck is first refilled from a shuffle of the
discard ids (the only implicit recycling point). -/
def draw (g : Nat → Nat) (s : BuilderState) : BuilderState :=
  if s.isLocked = false then s
  else if s.handLimit ≤ (s.hand.length : Int) then s
  else if s.deck = [] then
    if s.discard = [] then s
    else
      drawPop s (s.deck ++ shuffleInPlace g (s.discard.map (·.id))) []
  else drawPop s s.deck s.discard

/-- `discardGroupFromHand`: move the first (`all = false`, via `findIndex`)
or every (`all = true`, scanning from the end) hand entry with the given id
to the discard tail, tagged with `origin`; no-op when nothing matches. -/
def discardGroupFromHand (cardId : String) (all : Bool) (origin : Origin)
    (s : BuilderState) : BuilderState :=
  let removed :=
    if all then (s.hand.filter (fun h => h.id == cardId)).reverse
    else (s.hand.find? (fun h => h.id == cardId)).toList
  let hand1 :=
    if all then s.hand.filter (fun h => h.id != cardId)
    else s.hand.eraseP (fun h => h.id == cardId)
  if removed = [] then s
  else
    { s with
      hand := hand1
      discard := s.discard ++ removed.map (fun r => ⟨r.id, origin⟩) }

/-- `returnDiscardToDeck`: move all discard ids to the deck (top or bottom),
optionally shuffling the moved ids and then the whole deck. -/
def returnDiscardToDeck (doShuffle toTop : Bool) (g1 g2 : Nat → Nat)
    (s : BuilderState) : BuilderState :=
  let ids := s.discard.map (·.id)
  let ids1 := if doShuffle then shuffleInPlace g1 ids else ids
  let deck1 := if toTop then s.deck ++ ids1 else ids1 ++ s.deck
  let deck2 := if doShuffle then shuffleInPlace g2 deck1 else deck1
  { s with deck := deck2, discard := [] }

/-- `returnDiscardItemToDeck`: move the discard entry at `idx` to the deck
top.  The UI only invokes it with a valid index; an out-of-range index
would throw in the source (`undefined.id`), modelled as identity. -/
def returnDiscardItemToDeck (idx : Nat) (s : BuilderState) : BuilderState :=
  if h : idx < s.discard.length then
    { s with
      discard := s.discard.eraseIdx idx
      deck := s.deck ++ [(s.discard[idx]).id] }
  else s

/-- `returnDiscardGroupToDeck`: move every (`all = true`) or the first
(`all = false`) discard entry with the given id to the deck top. -/
def returnDiscardGroupToDeck (cardId : String) (all : Bool)
    (s : BuilderState) : BuilderState :=
  if all then
    { s with
      discard := s.discard.filter (fun d => d.id != cardId)
      deck := s.deck ++ (s.discard.filter (fun d => d.id == cardId)).map (·.id) }
  else
    match s.discard.find? (fun d => d.id == cardId) with
    | none => s
    | some it =>
      { s with
        discard := s.discard.eraseP (fun d => d.id == cardId)
        deck := s.deck ++ [it.id] }

/-- `returnDiscardItemToHand`: move the discard entry at `idx` to the hand
as unspent; rejected when the hand is at the limit.  As above, the UI only
passes a valid index. -/
def returnDiscardItemToHand (idx : Nat) (s : BuilderState) : BuilderState :=
  if s.handLimit ≤ (s.hand.length : Int) then s
  else if h : idx < s.discard.length then
    { s with
      discard := s.discard.eraseIdx idx
      hand := s.hand ++ [⟨(s.discard[idx]).id, CardState.unspent⟩] }
  else s

/-- The collection loop of `returnDiscardGroupToHand`, run on the reversed
discard (the source iterates from the last index down): gather matching
entries up to the budget, returning (moved, untouched-in-scan-order). -/
def collectRev (cardId : String) :
    List DiscardEntry → Nat → List DiscardEntry × List DiscardEntry
  | [], _ => ([], [])
  | l, 0 => ([], l)
  | e :: rest, k + 1 =>
    if e.id == cardId then
      let r := collectRev cardId rest k
      (e :: r.1, r.2)
    else
      let r := collectRev cardId rest (k + 1)
      (r.1, e :: r.2)

/-- `returnDiscardGroupToHand`: move up to `handLimit - |hand|` discard
entries of the given id to the hand as unspent, most recently discarded
first; only the first match when `all = false`; no-op when there is no
space or no match. -/
def returnDiscardGroupToHand (cardId : String) (all : Bool)
    (s : BuilderState) : BuilderState :=
  let space : Int := max 0 (s.handLimit - (s.hand.length : Int))
  if space ≤ 0 then s
  else
    let budget : Nat := if all then space.toNat else 1
    let r := collectRev cardId s.discard.reverse budget
    if r.1 = [] then s
    else
      { s with
        discard := r.2.reverse
        hand := s.hand ++ r.1.map (fun m => ⟨m.id, CardState.unspent⟩) }

/-- `toggleLockDeck`. -/
def toggleLockDeck (s : BuilderState) : BuilderState :=
  { s with isLocked := !s.isLocked }

/-- `adjustBaseCount`: clamp the new count to ≥ 0 and reject any change
that would push the base total above 26 (no lock check in this path). -/
def adjustBaseCount (cardId : String) (delta : Int) (s : BuilderState) :
    BuilderState :=
  let current := (lookup? s.baseCounts cardId).getD 0
  let next := clamp (current + delta) 0
  let newTotal := sumCounts s.baseCounts - current + next
  if BASE_TARGET < newTotal then s
  else { s with baseCounts := setKey s.baseCounts cardId next }

/-- Modelled from the spec: the cost lookup of the `utils/modCapacity`
module, which is not under `src/`.  Spec 4.1 fixes the policy: an unknown
id is treated as cost 0. -/
def costOf (cards : List Card) (cardId : String) : Int :=
  (((cards.find? (fun c => c.id == cardId)).map (·.cost)).getD 0)

/-- Modelled from the spec: `getModCapacityUsed` of `utils/modCapacity`
(not under `src/`).  Spec 4.1: sum of count × catalog cost over the
modifier counts. -/
def getModCapacityUsed (modCards : List Card) (modCounts : CountMap) : Int :=
  (modCounts.map (fun kv => kv.2 * costOf modCards kv.1)).sum

/-- Modelled from the spec: `canAddModCardFrom` of `utils/modCapacity`
(not under `src/`).  Spec 4.1 `canAdmit`: true iff
`capacityUsed(modCounts) + cost(candidate) ≤ capacity`. -/
def canAddModCardFrom (modCards : List Card) (s : BuilderState)
    (cardId : String) : Bool :=
  decide (getModCapacityUsed modCards s.modCounts + costOf modCards cardId ≤
    s.modifierCapacity)

/-- `adjustModCount`: rejected while locked; an increase is rejected when
`canAddModCardFrom` fails; otherwise the count is updated, clamped to ≥ 0. -/
def adjustModCount (cat : Catalog) (cardId : String) (delta : Int)
    (s : BuilderState) : BuilderState :=
  if s.isLocked then s
  else if 0 < delta ∧ canAddModCardFrom cat.modCards s cardId = false then s
  else
    let next := clamp ((lookup? s.modCounts cardId).getD 0 + delta) 0
    { s with modCounts := setKey s.modCounts cardId next }

/-- `adjustNullCount`: clamped to the floor of 5. -/
def adjustNullCount (delta : Int) (s : BuilderState) : BuilderState :=
  { s with nullCount := clamp (s.nullCount + delta) MIN_NULLS }

/-- `adjustModifierCapacity`: clamped to the floor of 0. -/
def adjustModifierCapacity (delta : Int) (s : BuilderState) : BuilderState :=
  { s with modifierCapacity := max (s.modifierCapacity + delta) 0 }

/-- The hand-limit number input handler: `clamp(parsed, 0)` (a NaN parse
keeps the prior value; callers here always pass an integer). -/
def setHandLimit (n : Int) (s : BuilderState) : BuilderState :=
  { s with handLimit := clamp n 0 }

/-- `baseValid`. -/
def baseValid (s : BuilderState) : Bool :=
  sumCounts s.baseCounts == BASE_TARGET

/-- `nullValid`. -/
def nullValid (s : BuilderState) : Bool :=
  decide (MIN_NULLS ≤ s.nullCount)

/-- `modValid` (uses the spec-modelled `getModCapacityUsed`). -/
def modValid (cat : Catalog) (s : BuilderState) : Bool :=
  decide (getModCapacityUsed cat.modCards s.modCounts ≤ s.modifierCapacity)

/-- `deckIsValid = baseValid && nullValid && modValid`. -/
def deckIsValid (cat : Catalog) (s : BuilderState) : Bool :=
  baseValid s && nullValid s && modValid cat s

/-- The transient play selection `{ baseId, mods }`. -/
structure ActivePlay where
  baseId : String
  mods : List String
deriving DecidableEq

/-- Modelled from the spec: `finalizeSelection` of `utils/playFlow` (not
under `src/`).  Spec 4.4: Finalize requires a non-empty `baseId` and
returns the null selection otherwise; it sees only the active play, not
the hand. -/
def finalizeSelection (ap : Option ActivePlay) : Option ActivePlay :=
  match ap with
  | none => none
  | some p => if p.baseId = "" then none else some p

/-- `finalizePlay`: on a non-null selection, move the base and then each
attached modifier from hand to discard as played, one
`discardGroupFromHand` call per id, and clear the active play. -/
def finalizePlay (ap : Option ActivePlay) (s : BuilderState) :
    Option ActivePlay × BuilderState :=
  match finalizeSelection ap with
  | none => (ap, s)
  | some sel =>
    let s1 := discardGroupFromHand sel.baseId false Origin.played s
    (none, sel.mods.foldl
      (fun st m => discardGroupFromHand m false Origin.played st) s1)

/-- `defaultState`. -/
def defaultState (cat : Catalog) : BuilderState :=
  { baseCounts := buildInitialCounts cat.baseCards
    modCounts := buildInitialCounts cat.modCards
    nullCount := MIN_NULLS
    modifierCapacity := 10
    deck := []
    hand := []
    discard := []
    isLocked := false
    handLimit := 5 }

/-- The value `JSON.parse` yields in `loadState`: each field independently
present or absent (the engine-relevant fields; a type-malformed field is
out of scope of the claims, which speak of integers). -/
structure ParsedState where
  baseCounts : Option CountMap
  modCounts : Option CountMap
  nullCount : Option Int
  modifierCapacity : Option Int
  deck : Option (List String)
  hand : Option (List HandEntry)
  discard : Option (List DiscardEntry)
  isLocked : Option Bool
  handLimit : Option Int
deriving DecidableEq

/-- `loadState`: `none` models a missing stored value or a `JSON.parse`
failure (the catch).  Counts are the spread `{ ...defaults, ...parsed }`,
`nullCount` is `Math.max(parsed.nullCount ?? 5, 5)`, everything else is
`parsed.x ?? default`. -/
def loadState (cat : Catalog) (raw : Option ParsedState) : BuilderState :=
  match raw with
  | none => defaultState cat
  | some parsed =>
    { baseCounts :=
        spreadMerge (buildInitialCounts cat.baseCards)
          (parsed.baseCounts.getD [])
      modCounts :=
        spreadMerge (buildInitialCounts cat.modCards)
          (parsed.modCounts.getD [])
      nullCount := max (parsed.nullCount.getD MIN_NULLS) MIN_NULLS
      modifierCapacity := parsed.modifierCapacity.getD 10
      deck := parsed.deck.getD []
      hand := parsed.hand.getD []
      discard := parsed.discard.getD []
      isLocked := parsed.isLocked.getD false
      handLimit := parsed.handLimit.getD 5 }

/-- The user commands that mutate the builder state (each shuffling
command carries its own randomness source). -/
inductive Op where
  | shuffleDeckOp (g : Nat → Nat)
  | drawOp (g : Nat → Nat)
  | generateDeckOp (doShuffle : Bool) (g : Nat → Nat)
  | resetDeckOp (g : Nat → Nat)
  | discardGroupFromHandOp (cardId : String) (all : Bool) (origin : Origin)
  | returnDiscardToDeckOp (doShuffle toTop : Bool) (g1 g2 : Nat → Nat)
  | returnDiscardItemToDeckOp (idx : Nat)
  | returnDiscardGroupToDeckOp (cardId : String) (all : Bool)
  | returnDiscardItemToHandOp (idx : Nat)
  | returnDiscardGroupToHandOp (cardId : String) (all : Bool)
  | toggleLockDeckOp
  | adjustBaseCountOp (cardId : String) (delta : Int)
  | adjustModCountOp (cardId : String) (delta : Int)
  | adjustNullCountOp (delta : Int)
  | adjustModifierCapacityOp (delta : Int)
  | setHandLimitOp (n : Int)

/-- Interpretation of one command. -/
def applyOp (cat : Catalog) (op : Op) (s : BuilderState) : BuilderState :=
  match op with
  | Op.shuffleDeckOp g => shuffleDeck g s
  | Op.drawOp g => draw g s
  | Op.generateDeckOp doShuffle g => generateDeck cat doShuffle g s
  | Op.resetDeckOp g => resetDeck cat g s
  | Op.discardGroupFromHandOp cardId all origin =>
    discardGroupFromHand cardId all origin s
  | Op.returnDiscardToDeckOp doShuffle toTop g1 g2 =>
    returnDiscardToDeck doShuffle toTop g1 g2 s
  | Op.returnDiscardItemToDeckOp idx => returnDiscardItemToDeck idx s
  | Op.returnDiscardGroupToDeckOp cardId all =>
    returnDiscardGroupToDeck cardId all s
  | Op.returnDiscardItemToHandOp idx => returnDiscardItemToHand idx s
  | Op.returnDiscardGroupToHandOp cardId all =>
    returnDiscardGroupToHand cardId all s
  | Op.toggleLockDeckOp => toggleLockDeck s
  | Op.adjustBaseCountOp cardId delta => adjustBaseCount cardId delta s
  | Op.adjustModCountOp cardId delta => adjustModCount cat cardId delta s
  | Op.adjustNullCountOp delta => adjustNullCount delta s
  | Op.adjustModifierCapacityOp delta => adjustModifierCapacity delta s
  | Op.setHandLimitOp n => setHandLimit n s

/-- Run a command sequence. -/
def runOps (cat : Catalog) (ops : List Op) (s : BuilderState) : BuilderState :=
  ops.foldl (fun st op => applyOp cat op st) s

/-- A state reachable from the session defaults by user commands. -/
def Reachable (cat : Catalog) (s : BuilderState) : Prop :=
  ∃ ops : List Op, runOps cat ops (defaultState cat) = s

/-- The engine transitions named by the conservation property: shuffle,
draw, discard-from-hand and the discard-return operations (no rebuild and
no count edit). -/
def engineOpB : Op → Bool
  | Op.shuffleDeckOp _ => true
  | Op.drawOp _ => true
  | Op.discardGroupFromHandOp _ _ _ => true
  | Op.returnDiscardToDeckOp _ _ _ _ => true
  | Op.returnDiscardItemToDeckOp _ => true
  | Op.returnDiscardGroupToDeckOp _ _ => true
  | Op.returnDiscardItemToHandOp _ => true
  | Op.returnDiscardGroupToHandOp _ _ => true
  | _ => false

/-- All card ids currently in play: deck, then hand, then discard. -/
def unionIds (s : BuilderState) : List String :=
  s.deck ++ s.hand.map (·.id) ++ s.discard.map (·.id)

/-- The same ids as a multiset (order forgotten). -/
def unionM (s : BuilderState) : Multiset String :=
  (unionIds s : Multiset String)

theorem unionM_eq (s : BuilderState) :
    unionM s = (s.deck : Multiset String) + ↑(s.hand.map (·.id)) +
      ↑(s.discard.map (·.id)) := by
  simp [unionM, unionIds, ← Multiset.coe_add, add_assoc]

theorem coe_perm {a b : List String} (h : List.Perm a b) :
    (↑a : Multiset String) = ↑b :=
  Multiset.coe_eq_coe.mpr h

theorem eraseIdx_cons_perm {α : Type} (l : List α) (i : Nat)
    (h : i < l.length) : List.Perm (l[i] :: l.eraseIdx i) l := by
  conv_rhs => rw [← List.take_append_drop i l, ← List.getElem_cons_drop l i h]
  rw [List.eraseIdx_eq_take_drop_succ]
  exact List.perm_middle.symm

theorem drawPop_none (s : BuilderState) (deck1 : List String)
    (discard1 : List DiscardEntry) (h : deck1.getLast? = none) :
    drawPop s deck1 discard1 = { s with deck := deck1, discard := discard1 } := by
  unfold drawPop
  rw [h]

theorem drawPop_some_blank (s : BuilderState) (deck1 : List String)
    (discard1 : List DiscardEntry) (h : deck1.getLast? = some "") :
    drawPop s deck1 discard1 =
      { s with deck := deck1.dropLast, discard := discard1 } := by
  unfold drawPop
  rw [h]
  simp

theorem drawPop_some (s : BuilderState) (deck1 : List String)
    (discard1 : List DiscardEntry) (cid : String)
    (h : deck1.getLast? = some cid) (hne : cid ≠ "") :
    drawPop s deck1 discard1 =
      { s with
        deck := deck1.dropLast
        hand := s.hand ++ [⟨cid, CardState.unspent⟩]
        discard := discard1 } := by
  unfold drawPop
  rw [h]
  simp [hne]

theorem draw_not_locked (g : Nat → Nat) (s : BuilderState)
    (h : s.isLocked = false) : draw g s = s := by
  unfold draw
  rw [if_pos h]

theorem draw_hand_full (g : Nat → Nat) (s : BuilderState)
    (h : s.handLimit ≤ (s.hand.length : Int)) : draw g s = s := by
  unfold draw
  by_cases h1 : s.isLocked = false
  · rw [if_pos h1]
  · rw [if_neg h1, if_pos h]

theorem draw_both_empty (g : Nat → Nat) (s : BuilderState)
    (h1 : s.isLocked = true) (h2 : (s.hand.length : Int) < s.handLimit)
    (h3 : s.deck = []) (h4 : s.discard = []) : draw g s = s := by
  unfold draw
  rw [if_neg (by simp [h1]), if_neg (not_le.mpr h2), if_pos h3, if_pos h4]

theorem draw_deck_nonempty (g : Nat → Nat) (s : BuilderState)
    (h1 : s.isLocked = true) (h2 : (s.hand.length : Int) < s.handLimit)
    (h3 : s.deck ≠ []) : draw g s = drawPop s s.deck s.discard := by
  unfold draw
  rw [if_neg (by simp [h1]), if_neg (not_le.mpr h2), if_neg h3]

theorem draw_refill (g : Nat → Nat) (s : BuilderState)
    (h1 : s.isLocked = true) (h2 : (s.hand.length : Int) < s.handLimit)
    (h3 : s.deck = []) (h4 : s.discard ≠ []) :
    draw g s = drawPop s (s.deck ++ shuffleInPlace g (s.discard.map (·.id))) [] := by
  unfold draw
  rw [if_neg (by simp [h1]), if_neg (not_le.mpr h2), if_pos h3, if_neg h4]

theorem drawPop_unionM (s : BuilderState) (deck1 : List String)
    (discard1 : List DiscardEntry) (h : "" ∉ deck1) :
    unionM (drawPop s deck1 discard1) =
      (deck1 : Multiset String) + ↑(s.hand.map (·.id)) +
        ↑(discard1.map (·.id)) := by
  cases hl : deck1.getLast? with
  | none =>
    have he : deck1 = [] := List.getLast?_eq_none_iff.mp hl
    subst he
    rw [drawPop_none s [] discard1 hl, unionM_eq]
  | some cid =>
    have hne : deck1 ≠ [] := by
      intro he; rw [he] at hl; simp at hl
    have hcid : cid = deck1.getLast hne := by
      have hg := List.getLast?_eq_getLast deck1 hne
      rw [hl] at hg
      exact Option.some.inj hg
    have hmem : cid ∈ deck1 := hcid ▸ List.getLast_mem hne
    have hcne : cid ≠ "" := fun e => h (e ▸ hmem)
    have hdec : deck1.dropLast ++ [cid] = deck1 := by
      rw [hcid]; exact List.dropLast_append_getLast hne
    rw [drawPop_some s deck1 discard1 cid hl hcne, unionM_eq]
    conv_rhs => rw [← hdec]
    simp only [List.map_append, List.map_cons, List.map_nil, ← Multiset.coe_add]
    simp [add_comm, add_assoc, add_left_comm]

theorem draw_unionM (g : Nat → Nat) (s : BuilderState)
    (h : "" ∉ unionIds s) : unionM (draw g s) = unionM s := by
  have hdeck : "" ∉ s.deck := fun hm => h (by simp [unionIds, hm])
  by_cases h1 : s.isLocked = false
  · rw [draw_not_locked g s h1]
  · have h1t : s.isLocked = true := by
      cases hb : s.isLocked
      · exact absurd hb h1
      · rfl
    by_cases h2 : s.handLimit ≤ (s.hand.length : Int)
    · rw [draw_hand_full g s h2]
    · have h2l : (s.hand.length : Int) < s.handLimit := not_le.mp h2
      by_cases h3 : s.deck = []
      · by_cases h4 : s.discard = []
        · rw [draw_both_empty g s h1t h2l h3 h4]
        · have hids : "" ∉ shuffleInPlace g (s.discard.map (·.id)) := by
            rw [shuffleInPlace_mem]
            intro hm
            exact h (by simp [unionIds, hm])
          have hnot : "" ∉ s.deck ++ shuffleInPlace g (s.discard.map (·.id)) := by
            intro hm
            rcases List.mem_append.mp hm with hm | hm
            · exact hdeck hm
            · exact hids hm
          rw [draw_refill g s h1t h2l h3 h4, drawPop_unionM s _ _ hnot,
            unionM_eq, h3]
          simp [← Multiset.coe_add,
            coe_perm (shuffleInPlace_perm g (s.discard.map (·.id))),
            add_comm, add_assoc, add_left_comm]
      · rw [draw_deck_nonempty g s h1t h2l h3, drawPop_unionM s _ _ hdeck,
          unionM_eq]

theorem shuffleDeck_unionM (g : Nat → Nat) (s : BuilderState) :
    unionM (shuffleDeck g s) = unionM s := by
  rw [unionM_eq, unionM_eq]
  simp [shuffleDeck, coe_perm (shuffleInPlace_perm g s.deck)]

theorem filter_map_id_perm (cardId : String) (l : List HandEntry) :
    List.Perm ((l.filter (fun h => h.id == cardId)).map (·.id) ++
      (l.filter (fun h => h.id != cardId)).map (·.id)) (l.map (·.id)) := by
  have h := List.filter_append_perm (fun h => h.id == cardId) l
  have h2 := h.map (·.id)
  simpa [List.map_append] using h2

theorem discardGroupFromHand_all_eq (cardId : String) (origin : Origin)
    (s : BuilderState)
    (hrem : (s.hand.filter (fun h => h.id == cardId)).reverse ≠ []) :
    discardGroupFromHand cardId true origin s =
      { s with
        hand := s.hand.filter (fun h => h.id != cardId)
        discard := s.discard ++
          ((s.hand.filter (fun h => h.id == cardId)).reverse.map
            (fun r => ⟨r.id, origin⟩)) } := by
  unfold discardGroupFromHand
  simp [hrem]

theorem discardGroupFromHand_one_eq (cardId : String) (origin : Origin)
    (s : BuilderState) (e : HandEntry)
    (hf : s.hand.find? (fun h => h.id == cardId) = some e) :
    discardGroupFromHand cardId false origin s =
      { s with
        hand := s.hand.eraseP (fun h => h.id == cardId)
        discard := s.discard ++ [⟨e.id, origin⟩] } := by
  unfold discardGroupFromHand
  simp [hf, Option.toList]

theorem discardGroupFromHand_none (cardId : String) (all : Bool)
    (origin : Origin) (s : BuilderState)
    (h : ∀ x ∈ s.hand, ¬x.id = cardId) :
    discardGroupFromHand cardId all origin s = s := by
  unfold discardGroupFromHand
  have hfil : s.hand.filter (fun h => h.id == cardId) = [] := by
    rw [List.filter_eq_nil_iff]
    intro a ha
    simpa using h a ha
  have hfind : s.hand.find? (fun h => h.id == cardId) = none := by
    rw [List.find?_eq_none]
    intro a ha
    simpa using h a ha
  cases all with
  | true => simp [hfil]
  | false => simp [hfind, Option.toList]

theorem discardGroupFromHand_all_unionM (cardId : String) (origin : Origin)
    (s : BuilderState) :
    unionM (discardGroupFromHand cardId true origin s) = unionM s := by
  by_cases hrem : (s.hand.filter (fun h => h.id == cardId)).reverse = []
  · have hnone : ∀ x ∈ s.hand, ¬x.id = cardId := by
      intro x hx hid
      have : x ∈ s.hand.filter (fun h => h.id == cardId) :=
        List.mem_filter.mpr ⟨hx, by simp [hid]⟩
      rw [← List.mem_reverse, hrem] at this
      simp at this
    rw [discardGroupFromHand_none cardId true origin s hnone]
  · rw [discardGroupFromHand_all_eq cardId origin s hrem]
    rw [unionM_eq, unionM_eq]
    have hsplit : ((s.hand.filter (fun h => h.id == cardId)).map (·.id) :
        Multiset String) +
        ↑((s.hand.filter (fun h => h.id != cardId)).map (·.id)) =
        ↑(s.hand.map (·.id)) := by
      rw [Multiset.coe_add]
      exact coe_perm (filter_map_id_perm cardId s.hand)
    conv_rhs => rw [← hsplit]
    have hrev : (((s.hand.filter (fun h => h.id == cardId)).reverse.map
        (fun r => (⟨r.id, origin⟩ : DiscardEntry))).map (·.id) : Multiset String) =
        ↑((s.hand.filter (fun h => h.id == cardId)).map (·.id)) := by
      rw [List.map_map]
      refine coe_perm ?_
      exact (List.reverse_perm _).map _
    simp only [List.map_append, ← Multiset.coe_add]
    rw [hrev]
    abel

theorem discardGroupFromHand_one_unionM (cardId : String) (origin : Origin)
    (s : BuilderState) :
    unionM (discardGroupFromHand cardId false origin s) = unionM s := by
  cases hf : s.hand.find? (fun h => h.id == cardId) with
  | none =>
    have hnone : ∀ x ∈ s.hand, ¬x.id = cardId := by
      intro x hx hid
      have := List.find?_eq_none.mp hf x hx
      simp [hid] at this
    rw [discardGroupFromHand_none cardId false origin s hnone]
  | some e =>
    have hmem := List.mem_of_find?_eq_some hf
    have hpe := List.find?_some hf
    obtain ⟨a, l1, l2, hl1, hpa, hdec, herase⟩ :=
      @List.exists_of_eraseP HandEntry (fun h => h.id == cardId) s.hand e hmem hpe
    have hfa : s.hand.find? (fun h => h.id == cardId) = some a := by
      rw [hdec, List.find?_append, List.find?_eq_none.mpr hl1]
      simp [List.find?_cons, hpa]
    have hae : e = a := by
      rw [hf] at hfa
      exact Option.some.inj hfa
    subst hae
    rw [discardGroupFromHand_one_eq cardId origin s e hf]
    rw [unionM_eq, unionM_eq]
    simp only [herase]
    conv_rhs => rw [hdec]
    simp only [List.map_append, List.map_cons, List.map_nil,
      ← Multiset.coe_add, ← Multiset.cons_coe, ← Multiset.singleton_add,
      Multiset.coe_nil]
    abel

theorem discardGroupFromHand_unionM (cardId : String) (all : Bool)
    (origin : Origin) (s : BuilderState) :
    unionM (discardGroupFromHand cardId all origin s) = unionM s := by
  cases all with
  | true => exact discardGroupFromHand_all_unionM cardId origin s
  | false => exact discardGroupFromHand_one_unionM cardId origin s

theorem returnDiscardToDeck_unionM (doShuffle toTop : Bool)
    (g1 g2 : Nat → Nat) (s : BuilderState) :
    unionM (returnDiscardToDeck doShuffle toTop g1 g2 s) = unionM s := by
  have hids := coe_perm (shuffleInPlace_perm g1 (s.discard.map (·.id)))
  cases doShuffle <;> cases toTop <;>
    · unfold returnDiscardToDeck
      rw [unionM_eq, unionM_eq]
      simp only [Bool.false_eq_true, if_pos, if_neg, ite_true, ite_false,
        List.map_nil, Multiset.coe_nil]
      first
      | rw [coe_perm (shuffleInPlace_perm g2 _), ← Multiset.coe_add, hids]
      | rw [← Multiset.coe_add, hids]
      | rw [← Multiset.coe_add]
      try abel

theorem returnDiscardItemToDeck_unionM (idx : Nat) (s : BuilderState) :
    unionM (returnDiscardItemToDeck idx s) = unionM s := by
  unfold returnDiscardItemToDeck
  by_cases h : idx < s.discard.length
  · rw [dif_pos h, unionM_eq, unionM_eq]
    have hperm : List.Perm ((s.discard[idx]).id ::
        (s.discard.eraseIdx idx).map (·.id)) (s.discard.map (·.id)) := by
      have := (eraseIdx_cons_perm s.discard idx h).map (·.id)
      simpa using this
    conv_rhs => rw [← coe_perm hperm]
    simp only [List.map_append, List.map_cons, List.map_nil,
      ← Multiset.coe_add, ← Multiset.cons_coe, ← Multiset.singleton_add,
      Multiset.coe_nil]
    abel
  · rw [dif_neg h]

theorem returnDiscardGroupToDeck_unionM (cardId : String) (all : Bool)
    (s : BuilderState) :
    unionM (returnDiscardGroupToDeck cardId all s) = unionM s := by
  unfold returnDiscardGroupToDeck
  cases all with
  | true =>
    rw [if_pos rfl]
    rw [unionM_eq, unionM_eq]
    have hsplit : (((s.discard.filter (fun d => d.id == cardId)).map (·.id) :
        List String) : Multiset String) +
        ↑((s.discard.filter (fun d => d.id != cardId)).map (·.id)) =
        ↑(s.discard.map (·.id)) := by
      rw [Multiset.coe_add]
      refine coe_perm ?_
      have := (List.filter_append_perm (fun d => d.id == cardId) s.discard).map (·.id)
      simpa [List.map_append] using this
    conv_rhs => rw [← hsplit]
    rw [← Multiset.coe_add]
    abel
  | false =>
    rw [if_neg (by simp)]
    cases hf : s.discard.find? (fun d => d.id == cardId) with
    | none => rfl
    | some e =>
      have hmem := List.mem_of_find?_eq_some hf
      have hpe := List.find?_some hf
      obtain ⟨a, l1, l2, hl1, hpa, hdec, herase⟩ :=
        @List.exists_of_eraseP DiscardEntry (fun d => d.id == cardId)
          s.discard e hmem hpe
      have hfa : s.discard.find? (fun d => d.id == cardId) = some a := by
        rw [hdec, List.find?_append, List.find?_eq_none.mpr hl1]
        simp [List.find?_cons, hpa]
      have hae : e = a := by
        rw [hf] at hfa
        exact Option.some.inj hfa
      subst hae
      rw [unionM_eq, unionM_eq]
      simp only [herase]
      conv_rhs => rw [hdec]
      simp only [List.map_append, List.map_cons, List.map_nil,
        ← Multiset.coe_add, ← Multiset.cons_coe, ← Multiset.singleton_add,
        Multiset.coe_nil]
      abel

theorem returnDiscardItemToHand_unionM (idx : Nat) (s : BuilderState) :
    unionM (returnDiscardItemToHand idx s) = unionM s := by
  unfold returnDiscardItemToHand
  by_cases hfull : s.handLimit ≤ (s.hand.length : Int)
  · rw [if_pos hfull]
  · rw [if_neg hfull]
    by_cases h : idx < s.discard.length
    · rw [dif_pos h, unionM_eq, unionM_eq]
      have hperm : List.Perm ((s.discard[idx]).id ::
          (s.discard.eraseIdx idx).map (·.id)) (s.discard.map (·.id)) := by
        have := (eraseIdx_cons_perm s.discard idx h).map (·.id)
        simpa using this
      conv_rhs => rw [← coe_perm hperm]
      simp only [List.map_append, List.map_cons, List.map_nil,
        ← Multiset.coe_add, ← Multiset.cons_coe, ← Multiset.singleton_add,
        Multiset.coe_nil]
      abel
    · rw [dif_neg h]

theorem collectRev_perm (cardId : String) (l : List DiscardEntry) (k : Nat) :
    List.Perm ((collectRev cardId l k).1 ++ (collectRev cardId l k).2) l := by
  induction l generalizing k with
  | nil => cases k <;> simp [collectRev]
  | cons e rest ih =>
    cases k with
    | zero => simp [collectRev]
    | succ n =>
      by_cases he : e.id == cardId
      · simp only [collectRev, he, if_pos]
        exact List.Perm.cons e (ih n)
      · simp only [collectRev, he, Bool.false_eq_true, if_neg, ite_false]
        refine List.Perm.trans List.perm_middle ?_
        exact List.Perm.cons e (ih (n + 1))

theorem collectRev_length (cardId : String) (l : List DiscardEntry) (k : Nat) :
    (collectRev cardId l k).1.length ≤ k := by
  induction l generalizing k with
  | nil => cases k <;> simp [collectRev]
  | cons e rest ih =>
    cases k with
    | zero => simp [collectRev]
    | succ n =>
      by_cases he : e.id == cardId
      · simp only [collectRev, he, if_pos, List.length_cons]
        exact Nat.succ_le_succ (ih n)
      · simp only [collectRev, he, Bool.false_eq_true, if_neg, ite_false]
        exact ih (n + 1)

theorem returnDiscardGroupToHand_unionM (cardId : String) (all : Bool)
    (s : BuilderState) :
    unionM (returnDiscardGroupToHand cardId all s) = unionM s := by
  unfold returnDiscardGroupToHand
  by_cases hs : (max 0 (s.handLimit - (s.hand.length : Int))) ≤ 0
  · rw [if_pos hs]
  · rw [if_neg hs]
    set budget := if all then (max 0 (s.handLimit - (s.hand.length : Int))).toNat
      else 1 with hb
    by_cases hm : (collectRev cardId s.discard.reverse budget).1 = []
    · rw [if_pos hm]
    · rw [if_neg hm]
      rw [unionM_eq, unionM_eq]
      have hperm : List.Perm
          ((collectRev cardId s.discard.reverse budget).1 ++
            (collectRev cardId s.discard.reverse budget).2) s.discard :=
        (collectRev_perm cardId s.discard.reverse budget).trans
          (List.reverse_perm s.discard)
      have hperm2 : ((collectRev cardId s.discard.reverse budget).1.map (·.id) :
          Multiset String) +
          ↑((collectRev cardId s.discard.reverse budget).2.map (·.id)) =
          ↑(s.discard.map (·.id)) := by
        rw [Multiset.coe_add]
        refine coe_perm ?_
        have := hperm.map (·.id)
        simpa [List.map_append] using this
      conv_rhs => rw [← hperm2]
      have hmrev : (((collectRev cardId s.discard.reverse budget).2.reverse.map
          (·.id) : List String) : Multiset String) =
          ↑((collectRev cardId s.discard.reverse budget).2.map (·.id)) := by
        refine coe_perm ?_
        exact (List.reverse_perm _).map _
      have hmoved : (((collectRev cardId s.discard.reverse budget).1.map
          (fun m => (⟨m.id, CardState.unspent⟩ : HandEntry))).map (·.id) :
          Multiset String) =
          ↑((collectRev cardId s.discard.reverse budget).1.map (·.id)) := by
        rw [List.map_map]
        rfl
      simp only [List.map_append, ← Multiset.coe_add]
      rw [hmrev, hmoved]
      abel

theorem generateDeck_unionM (cat : Catalog) (doShuffle : Bool)
    (g : Nat → Nat) (s : BuilderState) :
    unionM (generateDeck cat doShuffle g s) =
      (buildDeckArray cat s : Multiset String) + ↑(s.hand.map (·.id)) +
        ↑(s.discard.map (·.id)) := by
  unfold generateDeck
  rw [unionM_eq]
  cases doShuffle with
  | true => simp [coe_perm (shuffleInPlace_perm g (buildDeckArray cat s))]
  | false => simp

theorem resetDeck_unionM (cat : Catalog) (g : Nat → Nat) (s : BuilderState) :
    unionM (resetDeck cat g s) = (buildDeckArray cat s : Multiset String) := by
  unfold resetDeck
  rw [unionM_eq]
  simp [coe_perm (shuffleInPlace_perm g (buildDeckArray cat s))]

theorem applyOp_engine_unionM (cat : Catalog) (op : Op) (s : BuilderState)
    (hop : engineOpB op = true) (h : "" ∉ unionIds s) :
    unionM (applyOp cat op s) = unionM s := by
  cases op with
  | shuffleDeckOp g => exact shuffleDeck_unionM g s
  | drawOp g => exact draw_unionM g s h
  | discardGroupFromHandOp cardId all origin =>
    exact discardGroupFromHand_unionM cardId all origin s
  | returnDiscardToDeckOp doShuffle toTop g1 g2 =>
    exact returnDiscardToDeck_unionM doShuffle toTop g1 g2 s
  | returnDiscardItemToDeckOp idx => exact returnDiscardItemToDeck_unionM idx s
  | returnDiscardGroupToDeckOp cardId all =>
    exact returnDiscardGroupToDeck_unionM cardId all s
  | returnDiscardItemToHandOp idx => exact returnDiscardItemToHand_unionM idx s
  | returnDiscardGroupToHandOp cardId all =>
    exact returnDiscardGroupToHand_unionM cardId all s
  | generateDeckOp doShuffle g => simp [engineOpB] at hop
  | resetDeckOp g => simp [engineOpB] at hop
  | toggleLockDeckOp => simp [engineOpB] at hop
  | adjustBaseCountOp cardId delta => simp [engineOpB] at hop
  | adjustModCountOp cardId delta => simp [engineOpB] at hop
  | adjustNullCountOp delta => simp [engineOpB] at hop
  | adjustModifierCapacityOp delta => simp [engineOpB] at hop
  | setHandLimitOp n => simp [engineOpB] at hop

theorem not_mem_unionIds_of_unionM {s t : BuilderState}
    (heq : unionM t = unionM s) (h : "" ∉ unionIds s) : "" ∉ unionIds t := by
  intro hm
  apply h
  have hmt : ("" : String) ∈ unionM t := Multiset.mem_coe.mpr hm
  rw [heq] at hmt
  exact Multiset.mem_coe.mp hmt

theorem runOps_engine_unionM (cat : Catalog) (ops : List Op)
    (s : BuilderState) (hops : ops.all engineOpB = true)
    (h : "" ∉ unionIds s) : unionM (runOps cat ops s) = unionM s := by
  induction ops generalizing s with
  | nil => rfl
  | cons op rest ih =>
    rw [List.all_cons, Bool.and_eq_true] at hops
    have h1 := applyOp_engine_unionM cat op s hops.1 h
    have h2 := not_mem_unionIds_of_unionM h1 h
    calc unionM (runOps cat (op :: rest) s)
        = unionM (runOps cat rest (applyOp cat op s)) := rfl
      _ = unionM (applyOp cat op s) := ih (applyOp cat op s) hops.2 h2
      _ = unionM s := h1

/-- A fixed randomness source used for concrete executions. -/
def gZero : Nat → Nat := fun _ => 0

/-- A small concrete catalog: one base card of cost 1, no modifier cards,
a null card of cost 0. -/
def catN : Catalog := ⟨[⟨"b", 1⟩], [], some ⟨"n", 0⟩⟩

/-- A reachable state with a card in hand: build an unshuffled deck of the
five default nulls, lock, draw once. -/
def sHandOne : BuilderState :=
  runOps catN [Op.generateDeckOp false gZero, Op.toggleLockDeckOp,
    Op.drawOp gZero] (defaultState catN)

/-- C1 counterexample: the conservation claim fails for the Build
(`generateDeck`) baseline, because `generateDeck` replaces the deck without
clearing hand or discard.  In the reachable state `sHandOne` (one card
already in hand), rebuilding and then applying the empty operation sequence
leaves deck ∪ hand ∪ discard = six null ids while the expansion of the
selection counts is five. -/
theorem C1_conservation_cex :
    ¬ (∀ (cat : Catalog) (s : BuilderState), Reachable cat s →
        ∀ (doShuffle : Bool) (g : Nat → Nat) (ops : List Op),
          ops.all engineOpB = true →
          (unionM (runOps cat ops (generateDeck cat doShuffle g s)) =
              (buildDeckArray cat s : Multiset String) ∧
            unionM (runOps cat ops (resetDeck cat g s)) =
              (buildDeckArray cat s : Multiset String))) := by
  intro hclaim
  have hreach : Reachable catN sHandOne :=
    ⟨[Op.generateDeckOp false gZero, Op.toggleLockDeckOp, Op.drawOp gZero],
      rfl⟩
  have h := (hclaim catN sHandOne hreach false gZero [] rfl).1
  exact absurd h (by decide)

/-- C1 (amended): conservation holds for every operation sequence made of
shuffle, draw, discard-from-hand and discard-return transitions since the
last Reset (`resetDeck`), and since a Build (`generateDeck`) performed
while hand and discard were empty, provided the expansion contains no
empty-string id (an empty-string id popped by `draw` is dropped by the
falsy `!cardId` guard). -/
theorem C1_conservation (cat : Catalog) (g : Nat → Nat) (s : BuilderState)
    (ops : List Op) (hops : ops.all engineOpB = true)
    (hid : "" ∉ buildDeckArray cat s) :
    unionM (runOps cat ops (resetDeck cat g s)) =
      (buildDeckArray cat s : Multiset String) ∧
    (s.hand = [] → s.discard = [] → ∀ (doShuffle : Bool) (g2 : Nat → Nat),
      unionM (runOps cat ops (generateDeck cat doShuffle g2 s)) =
        (buildDeckArray cat s : Multiset String)) := by
  constructor
  · have hbase := resetDeck_unionM cat g s
    have hclean : "" ∉ unionIds (resetDeck cat g s) := by
      intro hm
      have hmm : ("" : String) ∈ unionM (resetDeck cat g s) :=
        Multiset.mem_coe.mpr hm
      rw [hbase] at hmm
      exact hid (Multiset.mem_coe.mp hmm)
    rw [runOps_engine_unionM cat ops _ hops hclean, hbase]
  · intro hh hd doShuffle g2
    have hbase : unionM (generateDeck cat doShuffle g2 s) =
        (buildDeckArray cat s : Multiset String) := by
      rw [generateDeck_unionM]
      simp [hh, hd]
    have hclean : "" ∉ unionIds (generateDeck cat doShuffle g2 s) := by
      intro hm
      have hmm : ("" : String) ∈ unionM (generateDeck cat doShuffle g2 s) :=
        Multiset.mem_coe.mpr hm
      rw [hbase] at hmm
      exact hid (Multiset.mem_coe.mp hmm)
    rw [runOps_engine_unionM cat ops _ hops hclean, hbase]

/-- Witness for the amended C1 at a concrete catalog, state and operation
sequence. -/
theorem C1_conservation_witness :
    ([Op.drawOp gZero].all engineOpB = true) ∧
    ("" ∉ buildDeckArray catN (defaultState catN)) ∧
    unionM (runOps catN [Op.drawOp gZero]
        (resetDeck catN gZero (defaultState catN))) =
      (buildDeckArray catN (defaultState catN) : Multiset String) ∧
    unionM (runOps catN [Op.drawOp gZero]
        (generateDeck catN true gZero (defaultState catN))) =
      (buildDeckArray catN (defaultState catN) : Multiset String) :=
  ⟨by decide, by decide,
    (C1_conservation catN gZero (defaultState catN) [Op.drawOp gZero]
      (by decide) (by decide)).1,
    (C1_conservation catN gZero (defaultState catN) [Op.drawOp gZero]
      (by decide) (by decide)).2 rfl rfl true gZero⟩

theorem drawPop_getLastD (s : BuilderState) (deck1 : List String)
    (discard1 : List DiscardEntry) (hne : deck1 ≠ []) :
    drawPop s deck1 discard1 =
      if deck1.getLastD "" = "" then
        { s with deck := deck1.dropLast, discard := discard1 }
      else
        { s with
          deck := deck1.dropLast
          hand := s.hand ++ [⟨deck1.getLastD "", CardState.unspent⟩]
          discard := discard1 } := by
  have hl := List.getLast?_eq_getLast deck1 hne
  have hd : deck1.getLastD "" = deck1.getLast hne := by
    rw [List.getLastD_eq_getLast?, hl]
    rfl
  by_cases hz : deck1.getLastD "" = ""
  · rw [if_pos hz]
    exact drawPop_some_blank s deck1 discard1 (by rw [hl, ← hd, hz])
  · rw [if_neg hz]
    rw [hd] at hz ⊢
    exact drawPop_some s deck1 discard1 _ hl hz

/-- The state used for the C2 counterexample: a locked state whose deck
consists of the single empty-string id. -/
def sBlankTop : BuilderState :=
  { baseCounts := []
    modCounts := []
    nullCount := 5
    modifierCapacity := 10
    deck := [""]
    hand := []
    discard := []
    isLocked := true
    handLimit := 5 }

/-- C2 counterexample: the claim that a draw from a non-empty deck always
appends the removed id to the hand fails when the top of the deck is the
empty string: `if (!cardId)` is also true for `""`, so the id is popped
from the deck but never reaches the hand. -/
theorem C2_draw_cex :
    ¬ (∀ (g : Nat → Nat) (s : BuilderState), s.isLocked = true →
        (s.hand.length : Int) < s.handLimit → s.deck ≠ [] →
        draw g s =
          { s with
            deck := s.deck.dropLast
            hand := s.hand ++ [⟨s.deck.getLastD "", CardState.unspent⟩] }) := by
  intro hclaim
  have h := hclaim gZero sBlankTop rfl (by decide) (by decide)
  exact absurd h (by decide)

/-- C2 (amended): Draw is a no-op when the deck is unlocked or the hand is
at or above the limit; otherwise, with a non-empty deck it pops the last
deck element and appends it to the hand as unspent, except that a popped
empty-string id is dropped without reaching the hand; with an empty deck
and non-empty discard it replaces the deck by a shuffle of the discard
ids, empties the discard, and pops one id in the same way. -/
theorem C2_draw (g : Nat → Nat) (s : BuilderState) :
    (s.isLocked = false → draw g s = s) ∧
    (s.handLimit ≤ (s.hand.length : Int) → draw g s = s) ∧
    (s.isLocked = true → (s.hand.length : Int) < s.handLimit →
      s.deck ≠ [] → s.deck.getLastD "" ≠ "" →
      draw g s =
        { s with
          deck := s.deck.dropLast
          hand := s.hand ++ [⟨s.deck.getLastD "", CardState.unspent⟩] }) ∧
    (s.isLocked = true → (s.hand.length : Int) < s.handLimit →
      s.deck ≠ [] → s.deck.getLastD "" = "" →
      draw g s = { s with deck := s.deck.dropLast }) ∧
    (s.isLocked = true → (s.hand.length : Int) < s.handLimit →
      s.deck = [] → s.discard ≠ [] →
      (shuffleInPlace g (s.discard.map (·.id))).getLastD "" ≠ "" →
      draw g s =
        { s with
          deck := (shuffleInPlace g (s.discard.map (·.id))).dropLast
          hand := s.hand ++
            [⟨(shuffleInPlace g (s.discard.map (·.id))).getLastD "",
              CardState.unspent⟩]
          discard := [] }) ∧
    (s.isLocked = true → (s.hand.length : Int) < s.handLimit →
      s.deck = [] → s.discard ≠ [] →
      (shuffleInPlace g (s.discard.map (·.id))).getLastD "" = "" →
      draw g s =
        { s with
          deck := (shuffleInPlace g (s.discard.map (·.id))).dropLast
          discard := [] }) := by
  have hfy : s.discard ≠ [] → shuffleInPlace g (s.discard.map (·.id)) ≠ [] := by
    intro h4
    have hlen : (shuffleInPlace g (s.discard.map (·.id))).length =
        s.discard.length := by
      rw [shuffleInPlace_length, List.length_map]
    intro hnil
    rw [hnil] at hlen
    exact h4 (List.length_eq_zero.mp hlen.symm)
  refine ⟨draw_not_locked g s, draw_hand_full g s, ?_, ?_, ?_, ?_⟩
  · intro h1 h2 h3 h4
    rw [draw_deck_nonempty g s h1 h2 h3, drawPop_getLastD s _ _ h3, if_neg h4]
  · intro h1 h2 h3 h4
    rw [draw_deck_nonempty g s h1 h2 h3, drawPop_getLastD s _ _ h3, if_pos h4]
  · intro h1 h2 h3 h4 h5
    rw [draw_refill g s h1 h2 h3 h4, h3, List.nil_append,
      drawPop_getLastD s _ _ (hfy h4), if_neg h5]
  · intro h1 h2 h3 h4 h5
    rw [draw_refill g s h1 h2 h3 h4, h3, List.nil_append,
      drawPop_getLastD s _ _ (hfy h4), if_pos h5]

/-- A locked state with a single non-empty id on the deck, used as the C2
witness input. -/
def sTopN : BuilderState :=
  { baseCounts := []
    modCounts := []
    nullCount := 5
    modifierCapacity := 10
    deck := ["n"]
    hand := []
    discard := []
    isLocked := true
    handLimit := 5 }

/-- Witness for the amended C2 at concrete states: an unlocked state is
unchanged, and a locked draw from deck `["n"]` pops `"n"` into the hand. -/
theorem C2_draw_witness :
    draw gZero (defaultState catN) = defaultState catN ∧
    draw gZero sTopN =
      { sTopN with
        deck := sTopN.deck.dropLast
        hand := sTopN.hand ++ [⟨sTopN.deck.getLastD "", CardState.unspent⟩] } :=
  ⟨(C2_draw gZero (defaultState catN)).1 rfl,
    (C2_draw gZero sTopN).2.2.1 rfl (by decide) (by decide) (by decide)⟩

/-- A locked state with an empty deck and a one-entry discard, used for
the C3 counterexample and witness. -/
def sOneDisc : BuilderState :=
  { baseCounts := []
    modCounts := []
    nullCount := 5
    modifierCapacity := 10
    deck := []
    hand := []
    discard := [⟨"n", Origin.discarded⟩]
    isLocked := true
    handLimit := 5 }

/-- C3 counterexample: after a reshuffle-on-empty draw the deck is NOT a
permutation of the prior discard ids, because the drawn card has already
been popped from it.  With discard `["n"]` the resulting deck is `[]`. -/
theorem C3_reshuffle_cex :
    ¬ (∀ (g : Nat → Nat) (s : BuilderState), s.isLocked = true →
        (s.hand.length : Int) < s.handLimit → s.deck = [] → s.discard ≠ [] →
        (((draw g s).deck : Multiset String) = ↑(s.discard.map (·.id)) ∧
          (draw g s).discard = [])) := by
  intro hclaim
  have h := (hclaim gZero sOneDisc rfl (by decide) rfl (by decide)).1
  exact absurd h (by decide)

/-- C3 (amended): a draw in a locked state with an empty deck, a non-empty
discard and a hand below the limit empties the discard and moves a shuffle
of the prior discard ids to the deck minus the one popped id, which is
appended to the hand; deck plus that drawn id is exactly a permutation of
the prior discard ids (assuming no empty-string id in the discard). -/
theorem C3_reshuffle (g : Nat → Nat) (s : BuilderState)
    (h1 : s.isLocked = true) (h2 : (s.hand.length : Int) < s.handLimit)
    (h3 : s.deck = []) (h4 : s.discard ≠ [])
    (h5 : "" ∉ s.discard.map (·.id)) :
    (draw g s).discard = [] ∧
    (draw g s).hand = s.hand ++
      [⟨(shuffleInPlace g (s.discard.map (·.id))).getLastD "",
        CardState.unspent⟩] ∧
    ((draw g s).deck : Multiset String) +
        {(shuffleInPlace g (s.discard.map (·.id))).getLastD ""} =
      ↑(s.discard.map (·.id)) := by
  have hlne : shuffleInPlace g (s.discard.map (·.id)) ≠ [] := by
    have hlen : (shuffleInPlace g (s.discard.map (·.id))).length =
        s.discard.length := by
      rw [shuffleInPlace_length, List.length_map]
    intro hnil
    rw [hnil] at hlen
    exact h4 (List.length_eq_zero.mp hlen.symm)
  have hd : (shuffleInPlace g (s.discard.map (·.id))).getLastD "" =
      (shuffleInPlace g (s.discard.map (·.id))).getLast hlne := by
    rw [List.getLastD_eq_getLast?, List.getLast?_eq_getLast _ hlne]
    rfl
  have hmem : (shuffleInPlace g (s.discard.map (·.id))).getLastD "" ∈
      s.discard.map (·.id) := by
    rw [hd, ← shuffleInPlace_mem g (s.discard.map (·.id))]
    exact List.getLast_mem hlne
  have hne : (shuffleInPlace g (s.discard.map (·.id))).getLastD "" ≠ "" := by
    intro hz
    rw [hz] at hmem
    exact h5 hmem
  rw [draw_refill g s h1 h2 h3 h4, h3, List.nil_append,
    drawPop_getLastD s _ [] hlne, if_neg hne]
  refine ⟨rfl, rfl, ?_⟩
  have hdec : (shuffleInPlace g (s.discard.map (·.id))).dropLast ++
      [(shuffleInPlace g (s.discard.map (·.id))).getLastD ""] =
      shuffleInPlace g (s.discard.map (·.id)) := by
    rw [hd]
    exact List.dropLast_append_getLast hlne
  calc ((shuffleInPlace g (s.discard.map (·.id))).dropLast : Multiset String) +
      {(shuffleInPlace g (s.discard.map (·.id))).getLastD ""}
      = ↑((shuffleInPlace g (s.discard.map (·.id))).dropLast ++
          [(shuffleInPlace g (s.discard.map (·.id))).getLastD ""]) := by
        rw [← Multiset.coe_singleton, Multiset.coe_add]
    _ = ↑(shuffleInPlace g (s.discard.map (·.id))) := by rw [hdec]
    _ = ↑(s.discard.map (·.id)) :=
        coe_perm (shuffleInPlace_perm g (s.discard.map (·.id)))

/-- Witness for the amended C3 at the concrete one-card discard state. -/
theorem C3_reshuffle_witness :
    sOneDisc.isLocked = true ∧
    ((draw gZero sOneDisc).discard = [] ∧
      (draw gZero sOneDisc).hand = sOneDisc.hand ++
        [⟨(shuffleInPlace gZero (sOneDisc.discard.map (·.id))).getLastD "",
          CardState.unspent⟩] ∧
      ((draw gZero sOneDisc).deck : Multiset String) +
          {(shuffleInPlace gZero (sOneDisc.discard.map (·.id))).getLastD ""} =
        ↑(sOneDisc.discard.map (·.id))) :=
  ⟨rfl, C3_reshuffle gZero sOneDisc rfl (by decide) rfl (by decide)
    (by decide)⟩

theorem find?_key_map (a : CountMap) (k : String) (f : String × Int → Int) :
    List.find? (fun kv => kv.1 == k) (a.map (fun kv => (kv.1, f kv))) =
      (List.find? (fun kv => kv.1 == k) a).map (fun kv => (kv.1, f kv)) := by
  induction a with
  | nil => rfl
  | cons kv rest ih =>
    by_cases h : (kv.1 == k) = true
    · simp [List.find?_cons, h]
    · simp only [List.map_cons, List.find?_cons]
      rw [Bool.not_eq_true] at h
      simp [h, ih]

theorem find?_filter_of_imp {α : Type} (p q : α → Bool) (l : List α)
    (h : ∀ x, p x = true → q x = true) :
    List.find? p (l.filter q) = List.find? p l := by
  induction l with
  | nil => rfl
  | cons x rest ih =>
    by_cases hp : p x = true
    · have hq := h x hp
      simp [List.filter_cons, hq, List.find?_cons, hp]
    · rw [Bool.not_eq_true] at hp
      by_cases hq : q x = true
      · simp [List.filter_cons, hq, List.find?_cons, hp, ih]
      · rw [Bool.not_eq_true] at hq
        simp [List.filter_cons, hq, List.find?_cons, hp, ih]

theorem lookup?_spreadMerge (a b : CountMap) (k : String) :
    lookup? (spreadMerge a b) k = (lookup? b k).or (lookup? a k) := by
  have hsplit : lookup? (spreadMerge a b) k =
      ((List.find? (fun kv => kv.1 == k)
          (a.map (fun kv => (kv.1, (lookup? b kv.1).getD kv.2)))).or
        (List.find? (fun kv => kv.1 == k)
          (b.filter (fun kv => (lookup? a kv.1).isNone)))).map (·.2) := by
    unfold lookup? spreadMerge
    rw [List.find?_append]
    rfl
  rw [hsplit, find?_key_map]
  cases hfa : List.find? (fun kv => kv.1 == k) a with
  | some kv0 =>
    have hk : kv0.1 = k := by simpa using List.find?_some hfa
    have ha : lookup? a k = some kv0.2 := by
      unfold lookup?
      rw [hfa]
      rfl
    have hb1 : lookup? b kv0.1 = lookup? b k := by rw [hk]
    rw [ha]
    have hred : Option.map (fun x : String × Int => x.2)
        ((Option.map (fun kv : String × Int =>
            (kv.1, (lookup? b kv.1).getD kv.2)) (some kv0)).or
          (List.find? (fun kv => kv.1 == k)
            (b.filter (fun kv => (lookup? a kv.1).isNone)))) =
        some ((lookup? b kv0.1).getD kv0.2) := rfl
    rw [hred, hb1]
    cases hb : lookup? b k with
    | some v => rfl
    | none => rfl
  | none =>
    have ha : lookup? a k = none := by
      unfold lookup?
      rw [hfa]
      rfl
    have himp : ∀ x : String × Int, (x.1 == k) = true →
        ((lookup? a x.1).isNone) = true := by
      intro x hx
      have hxk : x.1 = k := by simpa using hx
      simp [hxk, ha]
    rw [find?_filter_of_imp _ _ b himp, ha]
    have hred : Option.map (fun x : String × Int => x.2)
        ((Option.map (fun kv : String × Int =>
            (kv.1, (lookup? b kv.1).getD kv.2)) none).or
          (List.find? (fun kv => kv.1 == k) b)) =
        lookup? b k := rfl
    rw [hred]
    cases hb : lookup? b k with
    | some v => rfl
    | none => rfl

theorem lookup?_buildInitialCounts (cards : List Card) (k : String) :
    lookup? (buildInitialCounts cards) k =
      (if k ∈ cards.map (·.id) then some 0 else none) := by
  induction cards with
  | nil => simp [lookup?, buildInitialCounts]
  | cons c rest ih =>
    by_cases h : (c.id == k) = true
    · have hk : c.id = k := by simpa using h
      have hv : lookup? (buildInitialCounts (c :: rest)) k = some 0 := by
        unfold lookup? buildInitialCounts
        rw [List.map_cons, List.find?_cons_of_pos _ (by simpa using h)]
        rfl
      rw [hv, if_pos (by simp [hk])]
    · rw [Bool.not_eq_true] at h
      have hk : ¬k = c.id := by
        intro he
        rw [he] at h
        simp at h
      have hstep : lookup? (buildInitialCounts (c :: rest)) k =
          lookup? (buildInitialCounts rest) k := by
        unfold lookup? buildInitialCounts
        rw [List.map_cons, List.find?_cons_of_neg _ (by simp [h])]
      rw [hstep, ih]
      have hcond : (k ∈ (c :: rest).map (·.id)) ↔ (k ∈ rest.map (·.id)) := by
        simp [List.mem_cons, hk]
      rw [if_congr hcond rfl rfl]

/-- The catalog and snapshot used for the C4 counterexample: the catalog
knows only base id `a`, the snapshot stores a count for the stale id `z`. -/
def cat4 : Catalog := ⟨[⟨"a", 0⟩], [], none⟩

/-- A parsed snapshot whose baseCounts carry the stale id `z`. -/
def p4 : ParsedState :=
  ⟨some [("z", 3)], none, none, none, none, none, none, none, none⟩

/-- C4 counterexample: `loadState` does not intersect restored counts with
the catalog: the stale key `z` survives the spread
`{ ...defaults, ...parsed }` and appears in the restored baseCounts even
though the catalog has no such id. -/
theorem C4_loadState_cex :
    ¬ (∀ (cat : Catalog) (p : ParsedState),
        (∀ k ∈ (loadState cat (some p)).baseCounts.map (·.1),
          k ∈ cat.baseCards.map (·.id)) ∧
        (∀ k ∈ (loadState cat (some p)).modCounts.map (·.1),
          k ∈ cat.modCards.map (·.id))) := by
  intro hclaim
  have h := (hclaim cat4 p4).1 "z" (by decide)
  exact absurd h (by decide)

/-- C4 (amended): restoration merges instead of intersecting.  For every
key, the restored count is the snapshot value when the snapshot has the
key, otherwise 0 when the key is a catalog id, otherwise absent — so every
catalog id is (re)initialised, snapshot values override, and stale
snapshot ids are retained rather than dropped. -/
theorem C4_loadState (cat : Catalog) (p : ParsedState) (k : String) :
    lookup? (loadState cat (some p)).baseCounts k =
      (lookup? (p.baseCounts.getD []) k).or
        (if k ∈ cat.baseCards.map (·.id) then some 0 else none) ∧
    lookup? (loadState cat (some p)).modCounts k =
      (lookup? (p.modCounts.getD []) k).or
        (if k ∈ cat.modCards.map (·.id) then some 0 else none) := by
  constructor
  · rw [show (loadState cat (some p)).baseCounts =
        spreadMerge (buildInitialCounts cat.baseCards)
          (p.baseCounts.getD []) from rfl]
    rw [lookup?_spreadMerge, lookup?_buildInitialCounts]
  · rw [show (loadState cat (some p)).modCounts =
        spreadMerge (buildInitialCounts cat.modCards)
          (p.modCounts.getD []) from rfl]
    rw [lookup?_spreadMerge, lookup?_buildInitialCounts]

theorem discardGroupFromHand_absent (cardId : String) (all : Bool)
    (origin : Origin) (s : BuilderState)
    (h : cardId ∉ s.hand.map (·.id)) :
    discardGroupFromHand cardId all origin s = s := by
  refine discardGroupFromHand_none cardId all origin s ?_
  intro x hx hid
  exact h (hid ▸ List.mem_map_of_mem (·.id) hx)

theorem discardGroupFromHand_one_shrink (cardId : String) (origin : Origin)
    (s : BuilderState) (h : cardId ∈ s.hand.map (·.id)) :
    (discardGroupFromHand cardId false origin s).hand.length =
      s.hand.length - 1 ∧ 0 < s.hand.length := by
  obtain ⟨e, he, hid⟩ := List.mem_map.mp h
  have hsome : (s.hand.find? (fun h => h.id == cardId)).isSome := by
    rw [List.find?_isSome]
    exact ⟨e, he, by simp [hid]⟩
  obtain ⟨e1, hf⟩ := Option.isSome_iff_exists.mp hsome
  rw [discardGroupFromHand_one_eq cardId origin s e1 hf]
  have hp : (e1.id == cardId) = true :=
    @List.find?_some HandEntry (fun h => h.id == cardId) e1 s.hand hf
  constructor
  · show (s.hand.eraseP (fun h => h.id == cardId)).length = s.hand.length - 1
    exact List.length_eraseP_of_mem (List.mem_of_find?_eq_some hf) hp
  · refine List.length_pos.mpr ?_
    intro hnil
    rw [hnil] at he
    exact List.not_mem_nil e he

/-- A state whose hand holds the single unspent modifier `m`, used for the
C5 counterexample and witness. -/
def sModOnly : BuilderState :=
  { baseCounts := []
    modCounts := []
    nullCount := 5
    modifierCapacity := 10
    deck := []
    hand := [⟨"m", CardState.unspent⟩]
    discard := []
    isLocked := true
    handLimit := 5 }

/-- C5 counterexample: finalizing the active play `{baseId := b, mods := [m]}`
in a state whose hand no longer holds `b` is NOT rejected as a whole: the
modifier `m` is still moved to the discard, so hand and discard change. -/
theorem C5_finalize_cex :
    ¬ (∀ (s : BuilderState) (p : ActivePlay),
        p.baseId ∉ s.hand.map (·.id) →
        (finalizePlay (some p) s).2 = s) := by
  intro hclaim
  have h := hclaim sModOnly ⟨"b", ["m"]⟩ (by decide)
  exact absurd h (by decide)

/-- C5 (amended): `finalizePlay` re-validates nothing as a whole: with a
non-empty base id it always clears the active play and moves the base and
then each attached modifier by an independent `discardGroupFromHand` call;
an id absent from the hand is skipped individually (that call is a no-op)
while every other listed id still moves — in particular, with the base
absent and one present modifier the hand still shrinks. -/
theorem C5_finalize (s : BuilderState) (p : ActivePlay) :
    (∀ (cardId : String) (all : Bool) (origin : Origin),
      cardId ∉ s.hand.map (·.id) →
      discardGroupFromHand cardId all origin s = s) ∧
    (p.baseId ≠ "" →
      finalizePlay (some p) s =
        (none, p.mods.foldl
          (fun st m => discardGroupFromHand m false Origin.played st)
          (discardGroupFromHand p.baseId false Origin.played s))) ∧
    (∀ m : String, p.baseId ≠ "" → p.baseId ∉ s.hand.map (·.id) →
      p.mods = [m] → m ∈ s.hand.map (·.id) →
      ((finalizePlay (some p) s).2).hand.length < s.hand.length) := by
  have hrun : p.baseId ≠ "" →
      finalizePlay (some p) s =
        (none, p.mods.foldl
          (fun st m => discardGroupFromHand m false Origin.played st)
          (discardGroupFromHand p.baseId false Origin.played s)) := by
    intro hbase
    have hsel : finalizeSelection (some p) = some p := by
      simp only [finalizeSelection]
      rw [if_neg hbase]
    unfold finalizePlay
    rw [hsel]
  refine ⟨fun cardId all origin h =>
    discardGroupFromHand_absent cardId all origin s h, hrun, ?_⟩
  intro m hbase habs hmods hm
  rw [hrun hbase, hmods]
  have hskip : discardGroupFromHand p.baseId false Origin.played s = s :=
    discardGroupFromHand_absent p.baseId false Origin.played s habs
  have hfold : ([m].foldl
      (fun st mm => discardGroupFromHand mm false Origin.played st)
      (discardGroupFromHand p.baseId false Origin.played s)) =
      discardGroupFromHand m false Origin.played s := by
    rw [hskip]
    rfl
  rw [hfold]
  obtain ⟨hlen, hpos⟩ := discardGroupFromHand_one_shrink m Origin.played s hm
  show (discardGroupFromHand m false Origin.played s).hand.length <
    s.hand.length
  omega

/-- Witness for the amended C5 at the concrete one-modifier hand. -/
theorem C5_finalize_witness :
    (("b" : String) ∉ sModOnly.hand.map (·.id)) ∧
    (("m" : String) ∈ sModOnly.hand.map (·.id)) ∧
    ((finalizePlay (some ⟨"b", ["m"]⟩) sModOnly).2).hand.length <
      sModOnly.hand.length :=
  ⟨by decide, by decide,
    (C5_finalize sModOnly ⟨"b", ["m"]⟩).2.2 "m" (by decide) (by decide) rfl
      (by decide)⟩

theorem drawPop_hand_le (s : BuilderState) (deck1 : List String)
    (discard1 : List DiscardEntry) :
    (drawPop s deck1 discard1).hand.length ≤ s.hand.length + 1 := by
  cases hl : deck1.getLast? with
  | none =>
    rw [drawPop_none s deck1 discard1 hl]
    exact Nat.le_succ _
  | some cid =>
    by_cases hz : cid = ""
    · subst hz
      rw [drawPop_some_blank s deck1 discard1 hl]
      exact Nat.le_succ _
    · rw [drawPop_some s deck1 discard1 cid hl hz]
      simp

/-- The command sequence reaching a state whose hand exceeds a lowered
hand limit: raise nulls to 6, build, set the limit to 6, lock, draw six
cards, then lower the limit to 5. -/
def opsOverLimit : List Op :=
  [Op.adjustNullCountOp 1, Op.generateDeckOp false gZero,
    Op.setHandLimitOp 6, Op.toggleLockDeckOp, Op.drawOp gZero,
    Op.drawOp gZero, Op.drawOp gZero, Op.drawOp gZero, Op.drawOp gZero,
    Op.drawOp gZero, Op.setHandLimitOp 5]

/-- The reachable state with six cards in hand and hand limit 5. -/
def sOverLimit : BuilderState := runOps catN opsOverLimit (defaultState catN)

/-- C6 counterexample: in the reachable state `sOverLimit` (six cards in
hand, limit lowered to 5 afterwards) a Draw is a no-op, so immediately
after it the hand still has 6 > 5 entries — the bound does not hold in
states whose limit was lowered below the current hand size. -/
theorem C6_hand_bound_cex :
    ¬ (∀ (cat : Catalog) (s : BuilderState), Reachable cat s →
        (∀ g : Nat → Nat,
          ((draw g s).hand.length : Int) ≤ (draw g s).handLimit) ∧
        (∀ idx : Nat,
          ((returnDiscardItemToHand idx s).hand.length : Int) ≤
            (returnDiscardItemToHand idx s).handLimit) ∧
        (∀ (cardId : String) (all : Bool),
          ((returnDiscardGroupToHand cardId all s).hand.length : Int) ≤
            (returnDiscardGroupToHand cardId all s).handLimit)) := by
  intro hclaim
  have h := (hclaim catN sOverLimit ⟨opsOverLimit, rfl⟩).1 gZero
  exact absurd h (by decide)

/-- C6 (amended): Draw and the two discard-to-hand returns never push the
hand size above the hand limit: after any of them the hand size is at most
`max handLimit |hand|` (none of them changes `handLimit`); a hand already
above a lowered limit is left unchanged by them rather than re-bounded. -/
theorem C6_hand_bound (s : BuilderState) :
    (∀ g : Nat → Nat, ((draw g s).hand.length : Int) ≤
      max s.handLimit (s.hand.length : Int)) ∧
    (∀ idx : Nat, ((returnDiscardItemToHand idx s).hand.length : Int) ≤
      max s.handLimit (s.hand.length : Int)) ∧
    (∀ (cardId : String) (all : Bool),
      ((returnDiscardGroupToHand cardId all s).hand.length : Int) ≤
        max s.handLimit (s.hand.length : Int)) := by
  have hmaxl : s.handLimit ≤ max s.handLimit (s.hand.length : Int) :=
    le_max_left _ _
  have hmaxr : (s.hand.length : Int) ≤ max s.handLimit (s.hand.length : Int) :=
    le_max_right _ _
  refine ⟨?_, ?_, ?_⟩
  · intro g
    by_cases h1 : s.isLocked = false
    · rw [draw_not_locked g s h1]
      exact hmaxr
    · have h1t : s.isLocked = true := by
        cases hb : s.isLocked
        · exact absurd hb h1
        · rfl
      by_cases h2 : s.handLimit ≤ (s.hand.length : Int)
      · rw [draw_hand_full g s h2]
        exact hmaxr
      · have h2l : (s.hand.length : Int) < s.handLimit := not_le.mp h2
        by_cases h3 : s.deck = []
        · by_cases h4 : s.discard = []
          · rw [draw_both_empty g s h1t h2l h3 h4]
            exact hmaxr
          · rw [draw_refill g s h1t h2l h3 h4]
            have hb := drawPop_hand_le s
              (s.deck ++ shuffleInPlace g (s.discard.map (·.id))) []
            omega
        · rw [draw_deck_nonempty g s h1t h2l h3]
          have hb := drawPop_hand_le s s.deck s.discard
          omega
  · intro idx
    unfold returnDiscardItemToHand
    by_cases hfull : s.handLimit ≤ (s.hand.length : Int)
    · rw [if_pos hfull]
      exact hmaxr
    · rw [if_neg hfull]
      by_cases h : idx < s.discard.length
      · rw [dif_pos h]
        have : (s.hand ++ [(⟨(s.discard[idx]).id, CardState.unspent⟩ :
            HandEntry)]).length = s.hand.length + 1 := by simp
        have h2l : (s.hand.length : Int) < s.handLimit := not_le.mp hfull
        show ((s.hand ++ [(⟨(s.discard[idx]).id, CardState.unspent⟩ :
          HandEntry)]).length : Int) ≤ max s.handLimit (s.hand.length : Int)
        omega
      · rw [dif_neg h]
        exact hmaxr
  · intro cardId all
    unfold returnDiscardGroupToHand
    by_cases hsp : max 0 (s.handLimit - (s.hand.length : Int)) ≤ 0
    · rw [if_pos hsp]
      exact hmaxr
    · rw [if_neg hsp]
      have hx : 0 < s.handLimit - (s.hand.length : Int) := by
        by_contra hle
        push_neg at hle
        rw [max_eq_left hle] at hsp
        exact hsp le_rfl
      have hspeq : max 0 (s.handLimit - (s.hand.length : Int)) =
          s.handLimit - (s.hand.length : Int) := max_eq_right (le_of_lt hx)
      set budget : Nat := if all then
        (max 0 (s.handLimit - (s.hand.length : Int))).toNat else 1 with hbdef
      by_cases hm : (collectRev cardId s.discard.reverse budget).1 = []
      · rw [if_pos hm]
        exact hmaxr
      · rw [if_neg hm]
        have hmoved := collectRev_length cardId s.discard.reverse budget
        have hbud : budget ≤ (max 0 (s.handLimit -
            (s.hand.length : Int))).toNat := by
          rw [hbdef]
          cases all with
          | true => simp
          | false =>
            simp only [Bool.false_eq_true, if_neg, ite_false]
            rw [hspeq]
            omega
        have hlen : ((s.hand ++
            ((collectRev cardId s.discard.reverse budget).1.map
              (fun m => (⟨m.id, CardState.unspent⟩ : HandEntry)))).length) =
            s.hand.length +
              (collectRev cardId s.discard.reverse budget).1.length := by
          simp
        show ((s.hand ++
          ((collectRev cardId s.discard.reverse budget).1.map
            (fun m => (⟨m.id, CardState.unspent⟩ : HandEntry)))).length :
              Int) ≤ max s.handLimit (s.hand.length : Int)
        rw [hspeq] at hbud
        omega

/-- The catalog for the C7 counterexample: a single modifier of cost 0. -/
def cat7 : Catalog := ⟨[], [⟨"m0", 0⟩], none⟩

/-- An unlocked state with empty modifier counts and capacity 0, so
capacity usage equals capacity. -/
def sCapFull : BuilderState :=
  { baseCounts := []
    modCounts := []
    nullCount := 5
    modifierCapacity := 0
    deck := []
    hand := []
    discard := []
    isLocked := false
    handLimit := 5 }

/-- C7 counterexample: at full capacity an increase is NOT rejected for
every uncounted modifier id — a modifier of cost 0 is admitted by
`canAdmit` (used + 0 ≤ capacity), so `adjustModCount(+1)` changes the
state. -/
theorem C7_capacity_cex :
    ¬ (∀ (cat : Catalog) (s : BuilderState) (cardId : String),
        getModCapacityUsed cat.modCards s.modCounts = s.modifierCapacity →
        (lookup? s.modCounts cardId).getD 0 = 0 →
        cardId ∈ cat.modCards.map (·.id) →
        adjustModCount cat cardId 1 s = s) := by
  intro hclaim
  have h := hclaim cat7 sCapFull "m0" (by decide) (by decide) (by decide)
  exact absurd h (by decide)

/-- C7 (amended): once capacity usage equals the capacity, an
`adjustModCount(id, +1)` is rejected (state returned unchanged, locked or
not) for every id whose catalog cost is at least 1 — equivalently,
`canAdmit` is false for it; ids of cost 0 (including unknown ids, which
cost 0 by policy) are still admitted. -/
theorem C7_capacity (cat : Catalog) (s : BuilderState) (cardId : String)
    (hused : getModCapacityUsed cat.modCards s.modCounts = s.modifierCapacity)
    (hcost : 1 ≤ costOf cat.modCards cardId) :
    adjustModCount cat cardId 1 s = s ∧
    canAddModCardFrom cat.modCards s cardId = false := by
  have hcan : canAddModCardFrom cat.modCards s cardId = false := by
    unfold canAddModCardFrom
    rw [decide_eq_false_iff_not, hused]
    intro hle
    omega
  refine ⟨?_, hcan⟩
  unfold adjustModCount
  by_cases hl : s.isLocked = true
  · rw [if_pos hl]
  · rw [if_neg hl, if_pos ⟨by norm_num, hcan⟩]

/-- The catalog for the C7 witness: a single modifier of cost 2. -/
def cat7w : Catalog := ⟨[], [⟨"m1", 2⟩], none⟩

/-- Witness for the amended C7: with usage 0 = capacity 0 and a cost-2
modifier, the increase is rejected. -/
theorem C7_capacity_witness :
    getModCapacityUsed cat7w.modCards sCapFull.modCounts =
      sCapFull.modifierCapacity ∧
    1 ≤ costOf cat7w.modCards "m1" ∧
    (adjustModCount cat7w "m1" 1 sCapFull = sCapFull ∧
      canAddModCardFrom cat7w.modCards sCapFull "m1" = false) :=
  ⟨by decide, by decide, C7_capacity cat7w sCapFull "m1" (by decide)
    (by decide)⟩

/-- C8: `deckIsValid` is true exactly when the base total is 26, the null
count is at least 5 and the capacity usage is within the capacity; with 26
base cards, empty modifier counts and capacity 10 it is true at
`nullCount = 5` and false at `nullCount = 4`. -/
theorem C8_validity (cat : Catalog) (s : BuilderState) :
    (deckIsValid cat s = true ↔
      (sumCounts s.baseCounts = 26 ∧ 5 ≤ s.nullCount ∧
        getModCapacityUsed cat.modCards s.modCounts ≤ s.modifierCapacity)) ∧
    (sumCounts s.baseCounts = 26 → s.nullCount = 5 → s.modCounts = [] →
      s.modifierCapacity = 10 → deckIsValid cat s = true) ∧
    (sumCounts s.baseCounts = 26 → s.nullCount = 4 → s.modCounts = [] →
      s.modifierCapacity = 10 → deckIsValid cat s = false) := by
  have hiff : deckIsValid cat s = true ↔
      (sumCounts s.baseCounts = 26 ∧ 5 ≤ s.nullCount ∧
        getModCapacityUsed cat.modCards s.modCounts ≤ s.modifierCapacity) := by
    unfold deckIsValid baseValid nullValid modValid BASE_TARGET MIN_NULLS
    simp [Bool.and_eq_true, beq_iff_eq, and_assoc]
  refine ⟨hiff, ?_, ?_⟩
  · intro h1 h2 h3 h4
    rw [hiff]
    refine ⟨h1, by rw [h2], ?_⟩
    rw [h3, h4]
    unfold getModCapacityUsed
    norm_num
  · intro h1 h2 h3 h4
    rw [← Bool.not_eq_true, hiff]
    intro hcon
    rw [h2] at hcon
    omega

/-- A base distribution summing to 26, used for the C8 witness. -/
def bc26 : CountMap := [("s1", 20), ("s2", 6)]

/-- Witness for C8 at a concrete 26-card base distribution with capacity
10, checking both the `nullCount = 5` and the `nullCount = 4` scenario. -/
theorem C8_validity_witness :
    deckIsValid catN
      { baseCounts := bc26, modCounts := [], nullCount := 5,
        modifierCapacity := 10, deck := [], hand := [], discard := [],
        isLocked := false, handLimit := 5 } = true ∧
    deckIsValid catN
      { baseCounts := bc26, modCounts := [], nullCount := 4,
        modifierCapacity := 10, deck := [], hand := [], discard := [],
        isLocked := false, handLimit := 5 } = false :=
  ⟨(C8_validity catN _).2.1 (by decide) rfl rfl rfl,
    (C8_validity catN _).2.2 (by decide) rfl rfl rfl⟩

/-- C9: a draw in a locked state with room in hand but with both deck and
discard empty returns the state unchanged — no error and no partial
mutation. -/
theorem C9_draw_both_empty (g : Nat → Nat) (s : BuilderState)
    (h1 : s.isLocked = true) (h2 : (s.hand.length : Int) < s.handLimit)
    (h3 : s.deck = []) (h4 : s.discard = []) : draw g s = s :=
  draw_both_empty g s h1 h2 h3 h4

/-- A locked state with empty deck, hand and discard for the C9 witness. -/
def sAllEmpty : BuilderState :=
  { baseCounts := []
    modCounts := []
    nullCount := 5
    modifierCapacity := 10
    deck := []
    hand := []
    discard := []
    isLocked := true
    handLimit := 5 }

/-- Witness for C9 at the concrete all-empty locked state. -/
theorem C9_draw_both_empty_witness :
    sAllEmpty.isLocked = true ∧ draw gZero sAllEmpty = sAllEmpty :=
  ⟨rfl, C9_draw_both_empty gZero sAllEmpty rfl (by decide) rfl rfl⟩

/-- C10: every restored state has `nullCount ≥ 5`; a snapshot storing an
integer below 5 is restored with 5 instead of the stored value, so such a
snapshot does not round-trip. -/
theorem C10_loadState_nullCount (cat : Catalog) (raw : Option ParsedState) :
    5 ≤ (loadState cat raw).nullCount ∧
    (∀ (p : ParsedState) (c : Int), raw = some p → p.nullCount = some c →
      c < 5 → ((loadState cat raw).nullCount = 5 ∧
        (loadState cat raw).nullCount ≠ c)) := by
  constructor
  · cases raw with
    | none => exact le_refl 5
    | some p =>
      show 5 ≤ max (p.nullCount.getD MIN_NULLS) MIN_NULLS
      exact le_max_right _ _
  · intro p c hrp hpc hc
    subst hrp
    have hval : (loadState cat (some p)).nullCount =
        max (p.nullCount.getD MIN_NULLS) MIN_NULLS := rfl
    rw [hval, hpc]
    have hmax : max ((some c).getD MIN_NULLS) MIN_NULLS = 5 := by
      show max c MIN_NULLS = 5
      unfold MIN_NULLS
      exact max_eq_right (le_of_lt hc)
    rw [hmax]
    exact ⟨rfl, by omega⟩

/-- A parsed snapshot storing `nullCount = 2`, for the C10 witness. -/
def p10 : ParsedState :=
  ⟨none, none, some 2, none, none, none, none, none, none⟩

/-- Witness for C10: restoring a snapshot with stored nullCount 2 yields
nullCount 5 ≠ 2. -/
theorem C10_loadState_nullCount_witness :
    5 ≤ (loadState cat4 (some p10)).nullCount ∧
    ((loadState cat4 (some p10)).nullCount = 5 ∧
      (loadState cat4 (some p10)).nullCount ≠ 2) :=
  ⟨(C10_loadState_nullCount cat4 (some p10)).1,
    (C10_loadState_nullCount cat4 (some p10)).2 p10 2 rfl rfl (by norm_num)⟩

end Collapse
